import Mathlib

/-!
Verification of the tic-tac-toe history state machine from `learn-react`.

The embedded code is:
* `calculateWinner` (src/src/exercises/09.classes.js, lines 285-303, identical
  copies at lines 77-95 and src/unnamed/part_001 lines 119-137);
* `boardReducer` (src/src/exercises/09.classes.js, lines 181-210);
* `selectSquare` (src/unnamed/part_001, lines 28-46);
* the initial reducer state (09.classes.js, lines 214-217).

JS conventions used throughout the embedding: a board cell holds `null` or one
of the strings `'X'`/`'O'`, modelled as `Option Mark`; reading `squares[i]`
past the end of the array yields `undefined`, which is falsy exactly like
`null`, so both read as `none`; writing `squares[i] = m` for `i ≥ length`
extends the array with holes (holes also read back as `undefined`/`none`).
-/

namespace TicTacToe

/-- A mark on the board: the JS strings `'X'` and `'O'`. -/
inductive Mark where
  | X
  | O
deriving DecidableEq

/-- A cell of the board: `null`/`undefined` (falsy) or a mark. -/
abbrev Cell := Option Mark

/-- The `squares` array of one board. -/
abbrev Squares := List Cell

/-- One history entry `{squares}` (09.classes.js line 200 / 215). -/
structure Snapshot where
  squares : Squares
deriving DecidableEq

/-- The reducer state `{history, stepNumber}` (09.classes.js lines 214-217). -/
structure GameState where
  history : List Snapshot
  stepNumber : Nat
deriving DecidableEq

/-- JS read `squares[i]`: the element when present, `undefined` (= `none`)
past the end of the array (09.classes.js line 195). -/
def cellAt : Squares → Nat → Cell
  | [], _ => none
  | c :: _, 0 => c
  | _ :: rest, i + 1 => cellAt rest i

/-- JS write `squares[i] = m` (09.classes.js line 199): in-range assignment
replaces the element; out-of-range assignment extends the array with holes
(which read back as `undefined` = `none`) and puts the mark at index `i`. -/
def setCell : Squares → Nat → Mark → Squares
  | [], 0, m => [some m]
  | [], i + 1, m => none :: setCell [] i m
  | _ :: rest, 0, m => some m :: rest
  | c :: rest, i + 1, m => c :: setCell rest i m

/-- The eight winning lines, in the order of the `lines` literal in
`calculateWinner` (09.classes.js lines 286-295). -/
def lines : List (Nat × Nat × Nat) :=
  [(0, 1, 2), (3, 4, 5), (6, 7, 8),
   (0, 3, 6), (1, 4, 7), (2, 5, 8),
   (0, 4, 8), (2, 4, 6)]

/-- The `for` loop of `calculateWinner` (09.classes.js lines 296-302): scan the
lines in order; on the first line whose first cell is truthy and whose three
cells are `===`-equal, return that cell; otherwise return `null`. The loop is
parametrised by the property lookup `squares[·]` so that the call
`calculateWinner(square)` with a number argument (part_001 line 32), where
every property read yields `undefined`, is also expressible. -/
def winnerLoop (lookup : Nat → Cell) : List (Nat × Nat × Nat) → Option Mark
  | [] => none
  | l :: rest =>
    if (lookup l.1).isSome ∧ lookup l.1 = lookup l.2.1 ∧ lookup l.1 = lookup l.2.2
    then lookup l.1
    else winnerLoop lookup rest

/-- `calculateWinner(squares)` (09.classes.js lines 285-303). -/
def calculateWinner (squares : Squares) : Option Mark :=
  winnerLoop (cellAt squares) lines

/-- The dispatched action objects: `{type: 'SELECT_SQUARE', square}`
(09.classes.js line 224), `{type: 'SET_STEPNUMBER', stepNumber}` (line 242),
and `other t` for an action object carrying any other `type` string. -/
inductive Action where
  | SELECT_SQUARE (square : Nat)
  | SET_STEPNUMBER (stepNumber : Nat)
  | other (type : String)

/-- What the JS reducer call can do: `.error msg` models a thrown `Error`,
`.ok none` models falling off a bare `return` (the reducer call evaluates to
`undefined`), `.ok (some s)` models returning the state `s`. -/
abbrev ReducerResult := Except String (Option GameState)

/-- `boardReducer` (09.classes.js lines 181-210), line by line:
`xIsNext = state.stepNumber % 2 === 0`; the `SET_STEPNUMBER` case copies the
state with the new `stepNumber` (no range check); the `SELECT_SQUARE` case
takes `newHistory = history.slice(0, stepNumber + 1)`, reads
`current = newHistory[newHistory.length - 1]` (a read of `.squares` on
`undefined` throws a `TypeError` when `newHistory` is empty), rejects with a
bare `return` — value `undefined` — when `calculateWinner(squares)` or
`squares[action.square]` is truthy, otherwise writes the mover's mark into a
copy of the squares and returns the state with the extended history and
`stepNumber + 1`; the default case throws
`Error("Unexpection action: " + action.type)` (sic, line 208). -/
def boardReducer (state : GameState) (action : Action) : ReducerResult :=
  match action with
  | .SET_STEPNUMBER stepNumber =>
      .ok (some { state with stepNumber := stepNumber })
  | .SELECT_SQUARE square =>
      let newHistory := state.history.take (state.stepNumber + 1)
      match newHistory.getLast? with
      | none => .error "TypeError: Cannot read property of undefined"
      | some current =>
          if (calculateWinner current.squares).isSome ||
              (cellAt current.squares square).isSome then
            .ok none
          else
            let newSquares :=
              setCell current.squares square
                (if state.stepNumber % 2 = 0 then Mark.X else Mark.O)
            .ok (some { state with
                          history := newHistory ++ [⟨newSquares⟩],
                          stepNumber := state.stepNumber + 1 })
  | .other t => .error ("Unexpection action: " ++ t)

/-- The initial reducer state (09.classes.js lines 214-217):
`{history: [{squares: Array(9).fill(null)}], stepNumber: 0}`. -/
def emptySnapshot : Snapshot := ⟨List.replicate 9 none⟩

/-- The initial reducer state passed to `React.useReducer`
(09.classes.js lines 214-217). -/
def initialState : GameState := { history := [emptySnapshot], stepNumber := 0 }

/-- The snapshot the `SELECT_SQUARE` case validates against:
`history.slice(0, stepNumber + 1)` and then its last element
(09.classes.js lines 191-192). -/
def currentSnapshot (st : GameState) : Option Snapshot :=
  (st.history.take (st.stepNumber + 1)).getLast?

/-- `selectSquare` of src/unnamed/part_001 (lines 28-46), acting on the two
`useState` values `(squares, xIsNext)`: `none` models the early `return`
(neither setter is called, so the state is unchanged); `some` carries the new
`(squares, xIsNext)` pair. NOTE: line 32 of the source reads
`if (calculateWinner(square) || squares[square]) return` — it passes `square`
(the clicked cell index, a number) to `calculateWinner`, not the board; every
property read on a number yields `undefined`, so that call runs the loop over
the constant-`undefined` lookup. -/
def selectSquare (squares : Squares) (xIsNext : Bool) (square : Nat) :
    Option (Squares × Bool) :=
  if (winnerLoop (fun _ => none) lines).isSome || (cellAt squares square).isSome
  then none
  else some (setCell squares square (if xIsNext then Mark.X else Mark.O), !xIsNext)

/-- Modelled from the spec (§4.2): `whoseTurn(cursor)` is the pure parity
function — Player A (`'X'`) when the cursor is even, Player B (`'O'`) when
odd. It coincides definitionally with the mark the reducer writes
(`xIsNext ? 'X' : 'O'` with `xIsNext = stepNumber % 2 === 0`,
09.classes.js lines 182 and 199). -/
def whoseTurn (cursor : Nat) : Mark :=
  if cursor % 2 = 0 then Mark.X else Mark.O

/-- Modelled from the spec (§7): the error taxonomy of the re-architected
rule engine. The code itself never materialises these values — every rejected
move evaluates to `undefined`. -/
inductive MoveError where
  | CellOccupied
  | AlreadyDecided
  | IndexOutOfRange
deriving DecidableEq

/-- Modelled from the spec (§4.2): `applyMove(snapshot, cellIndex, cursor)`
with the spec's own check order — `AlreadyDecided` if a winner exists, then
`CellOccupied` if the target cell is not Empty, then `IndexOutOfRange` if
`cellIndex` is outside the board's valid range, otherwise the new snapshot
with `whoseTurn(cursor)`'s mark at the target cell. Stated to compare the
spec's error discrimination with the code's undiscriminated rejection. -/
def applyMoveSpec (s : Snapshot) (cellIndex : Nat) (cursor : Nat) :
    Except MoveError Snapshot :=
  if (calculateWinner s.squares).isSome then .error .AlreadyDecided
  else if (cellAt s.squares cellIndex).isSome then .error .CellOccupied
  else if s.squares.length ≤ cellIndex then .error .IndexOutOfRange
  else .ok ⟨setCell s.squares cellIndex (whoseTurn cursor)⟩

/-- Modelled from the spec (§4.2, `winner`): the first line of the fixed
enumeration whose three cells hold equal non-Empty marks, `null` when no line
matches. -/
def lineWinner (lookup : Nat → Cell) (l : Nat × Nat × Nat) : Option Mark :=
  match lookup l.1, lookup l.2.1, lookup l.2.2 with
  | some x, some y, some z => if x = y ∧ x = z then some x else none
  | _, _, _ => none

/-- Modelled from the spec (§4.2): `winner(snapshot)` as the first matching
line in the fixed enumeration order. -/
def winnerSpec (squares : Squares) : Option Mark :=
  lines.findSome? (lineWinner (cellAt squares))

/-- Dispatching a list of `SELECT_SQUARE` intents in order, all of which must
be accepted (`some` result from every reducer call, i.e. a sequence of legal
moves with no intervening `SET_STEPNUMBER`). -/
def runMoves : GameState → List Nat → Option GameState
  | st, [] => some st
  | st, m :: ms =>
    match boardReducer st (.SELECT_SQUARE m) with
    | .ok (some st') => runMoves st' ms
    | _ => none

/-- A board on which X has already won the top row and cell 4 is occupied:
`['X','X','X','O','O',null,null,null,null]`. -/
def wonBoard : Snapshot :=
  ⟨[some Mark.X, some Mark.X, some Mark.X,
    some Mark.O, some Mark.O, none, none, none, none]⟩

/-- A board whose cell 0 is already occupied by X, all other cells empty. -/
def occBoard : Snapshot :=
  ⟨[some Mark.X, none, none, none, none, none, none, none, none]⟩

/-- A history of length 5 with the cursor moved back to 0. -/
def fiveState : GameState :=
  { history := List.replicate 5 emptySnapshot, stepNumber := 0 }

/-- The state produced from `fiveState` by the legal move at cell 0. -/
def afterFive : GameState :=
  { history := [emptySnapshot, ⟨setCell emptySnapshot.squares 0 Mark.X⟩],
    stepNumber := 1 }

/-- The state produced from `initialState` by the legal move at cell 4. -/
def afterMove4 : GameState :=
  { history := [emptySnapshot, ⟨setCell emptySnapshot.squares 4 Mark.X⟩],
    stepNumber := 1 }

/-- The state produced from `initialState` by the legal moves 0, 4, 1. -/
def afterThree : GameState :=
  (runMoves initialState [0, 4, 1]).getD initialState

/-! ## Helper lemmas -/

/-- Writing a mark at index `i` makes index `i` read back that mark,
whether the write was in range or extended the array. -/
theorem cellAt_setCell_self (sq : Squares) (i : Nat) (m : Mark) :
    cellAt (setCell sq i m) i = some m := by
  induction i generalizing sq with
  | zero => cases sq <;> rfl
  | succ i ih => cases sq <;> simp [setCell, cellAt, ih]

/-- Length after a JS write: unchanged in range, `i + 1` when extending. -/
theorem length_setCell (sq : Squares) (i : Nat) (m : Mark) :
    (setCell sq i m).length = if i < sq.length then sq.length else i + 1 := by
  induction i generalizing sq with
  | zero => cases sq <;> simp [setCell]
  | succ i ih =>
    cases sq with
    | nil => simp [setCell, ih]
    | cons c rest =>
      simp only [setCell, List.length_cons, ih, Nat.succ_lt_succ_iff]
      by_cases hlt : i < rest.length <;> simp [hlt]

/-- Reading past the end of the array yields `undefined` (= `none`). -/
theorem cellAt_of_length_le (sq : Squares) (i : Nat) (h : sq.length ≤ i) :
    cellAt sq i = none := by
  induction sq generalizing i with
  | nil => rfl
  | cons c rest ih =>
    cases i with
    | zero => simp at h
    | succ i => exact ih i (by simpa using h)

/-- The last element of `l ++ [x]` is `x`. -/
theorem concat_getLast {α : Type} (l : List α) (x : α) :
    (l ++ [x]).getLast? = some x := by
  induction l with
  | nil => rfl
  | cons c rest ih =>
    cases rest with
    | nil => rfl
    | cons d rest2 =>
      simp only [List.cons_append] at ih ⊢
      rw [List.getLast?_cons_cons]
      exact ih

/-- The parity turn function flips at every cursor increment. -/
theorem whoseTurn_succ_ne (c : Nat) : whoseTurn (c + 1) ≠ whoseTurn c := by
  unfold whoseTurn
  rcases Nat.mod_two_eq_zero_or_one c with h | h
  · have h1 : (c + 1) % 2 = 1 := by omega
    rw [h, h1]
    decide
  · have h1 : (c + 1) % 2 = 0 := by omega
    rw [h, h1]
    decide

/-- Inversion of a successful `SELECT_SQUARE` dispatch: the reducer returned a
state exactly when the truncated history was non-empty and its last snapshot
had no winner and an empty target cell; the returned state is the truncated
history extended by the marked snapshot, with the cursor advanced by one. -/
theorem selectSquare_success {st st' : GameState} {i : Nat}
    (h : boardReducer st (.SELECT_SQUARE i) = .ok (some st')) :
    ∃ cur, (st.history.take (st.stepNumber + 1)).getLast? = some cur ∧
      calculateWinner cur.squares = none ∧
      cellAt cur.squares i = none ∧
      st' = { history := st.history.take (st.stepNumber + 1) ++
                [⟨setCell cur.squares i (whoseTurn st.stepNumber)⟩],
              stepNumber := st.stepNumber + 1 } := by
  unfold boardReducer at h
  simp only at h
  split at h
  · exact absurd h (by simp)
  · rename_i cur hcur
    split at h
    · exact absurd h (by simp)
    · rename_i hg
      rw [Bool.or_eq_true, not_or] at hg
      obtain ⟨hw, ho⟩ := hg
      rw [Option.not_isSome_iff_eq_none] at hw ho
      refine ⟨cur, hcur, hw, ho, ?_⟩
      injection h with h1
      injection h1 with h2
      rw [← h2]
      rfl

/-- The `for` loop of `calculateWinner` computes the first line of the list
for which the spec's line predicate produces a player. -/
theorem winnerLoop_findSome (lookup : Nat → Cell) (ls : List (Nat × Nat × Nat)) :
    winnerLoop lookup ls = ls.findSome? (lineWinner lookup) := by
  induction ls with
  | nil => rfl
  | cons l rest ih =>
    rw [winnerLoop, List.findSome?]
    rcases ha : lookup l.1 with _ | x
    · simp only [lineWinner, ha, Option.isSome_none, Bool.false_eq_true, false_and,
        if_false, ih]
    · rcases hb : lookup l.2.1 with _ | y
      · simp only [lineWinner, ha, hb, Option.some.injEq, ih]
        rw [if_neg (by simp)]
      · rcases hc : lookup l.2.2 with _ | z
        · simp only [lineWinner, ha, hb, hc, Option.some.injEq, ih]
          rw [if_neg (by simp)]
        · simp only [lineWinner, ha, hb, hc, Option.isSome_some, true_and,
            Option.some.injEq]
          by_cases hxy : x = y ∧ x = z
          · rw [if_pos hxy, if_pos hxy]
          · rw [if_neg hxy, if_neg hxy, ih]

/-- Running legal moves preserves the cursor-at-end invariant and grows the
history by one snapshot per accepted move. -/
theorem runMoves_invariant (ms : List Nat) :
    ∀ st st' : GameState,
      st.stepNumber + 1 = st.history.length →
      runMoves st ms = some st' →
      st'.history.length = st.history.length + ms.length ∧
      st'.stepNumber + 1 = st'.history.length := by
  induction ms with
  | nil =>
    intro st st' hinv h
    rw [runMoves] at h
    injection h with h1
    rw [← h1]
    exact ⟨rfl, hinv⟩
  | cons m rest ih =>
    intro st st' hinv h
    rw [runMoves] at h
    rcases hr : boardReducer st (.SELECT_SQUARE m) with e | o
    · rw [hr] at h
      exact absurd h (by simp)
    · rcases o with _ | s1
      · rw [hr] at h
        exact absurd h (by simp)
      · rw [hr] at h
        simp only at h
        obtain ⟨cur, hcur, hw, ho, hs1⟩ := selectSquare_success hr
        have htake : st.history.take (st.stepNumber + 1) = st.history := by
          rw [hinv]
          exact List.take_length st.history
        have hlen1 : s1.history.length = st.history.length + 1 := by
          rw [hs1]
          simp [htake]
        have hinv1 : s1.stepNumber + 1 = s1.history.length := by
          rw [hs1] at hlen1 ⊢
          simp only [hlen1]
          simp [hinv]
        obtain ⟨hA, hB⟩ := ih s1 st' hinv1 h
        refine ⟨?_, hB⟩
        rw [hA, hlen1, List.length_cons]
        omega

/-! ## Claims -/

/-- C1: the claim says an invalid `SELECT_SQUARE` (occupied target cell)
returns the input state unchanged. The code instead executes a bare `return`
(09.classes.js line 196), so the reducer call evaluates to `undefined`
(`.ok none`), which is not the input state (nor any state): at the failing
input — cell 0 already holds X, dispatch `SELECT_SQUARE 0` — the reducer
produces `undefined`, not the unchanged state. -/
theorem C1_invalid_move_returns_undefined :
    boardReducer { history := [occBoard], stepNumber := 0 } (.SELECT_SQUARE 0) =
      .ok none ∧
    (Except.ok none : ReducerResult) ≠
      .ok (some { history := [occBoard], stepNumber := 0 }) := by
  refine ⟨rfl, ?_⟩
  intro h
  simp at h

/-- C2 counterexample: on the initial state, whose history has length 1 (so 5
is outside `[0, 0]`), dispatching `SET_STEPNUMBER 5` does not fail — the
reducer returns a state with the out-of-range cursor 5, refuting the claim
that `goTo` fails with an `OutOfRange` error for out-of-range indices. -/
theorem C2_counterexample :
    initialState.history.length = 1 ∧
    boardReducer initialState (.SET_STEPNUMBER 5) =
      .ok (some { history := initialState.history, stepNumber := 5 }) :=
  ⟨rfl, rfl⟩

/-- C2 amended: `SET_STEPNUMBER` performs no range check at all: for every
state and every index — in range or not — it returns the state with the
cursor set to that index and the history sequence unmodified
(09.classes.js lines 184-189). -/
theorem C2_set_stepnumber_unchecked (st : GameState) (n : Nat) :
    boardReducer st (.SET_STEPNUMBER n) =
      .ok (some { history := st.history, stepNumber := n }) :=
  rfl

/-- C3: for every state whose cursor is in range and every accepted
`SELECT_SQUARE`, the new history is the prefix `[0, Cursor]` of the old one
with the new snapshot appended, its length is `Cursor + 2`, and the new
cursor is the new last index. In particular a history of length 5 with
cursor 0 yields a history of length exactly 2 (see the witness). -/
theorem C3_append_truncates_then_extends (st st' : GameState) (i : Nat)
    (hcur : st.stepNumber < st.history.length)
    (h : boardReducer st (.SELECT_SQUARE i) = .ok (some st')) :
    (∃ snap, st'.history = st.history.take (st.stepNumber + 1) ++ [snap]) ∧
    st'.history.length = st.stepNumber + 2 ∧
    st'.stepNumber = st'.history.length - 1 := by
  obtain ⟨cur, hc, hw, ho, hs⟩ := selectSquare_success h
  have hlen : st'.history.length = st.stepNumber + 2 := by
    rw [hs]
    simp only [List.length_append, List.length_take, List.length_cons,
      List.length_nil]
    omega
  refine ⟨⟨_, by rw [hs]⟩, hlen, ?_⟩
  rw [hlen, hs]
  simp

/-- C3 witness: the scenario from the spec — a history of length 5 with the
cursor moved to 0; the legal move at cell 0 is accepted and the resulting
history has length exactly 2 = cursor + 2, with the cursor at the last
index. -/
theorem C3_witness :
    fiveState.stepNumber < fiveState.history.length ∧
    boardReducer fiveState (.SELECT_SQUARE 0) = .ok (some afterFive) ∧
    ((∃ snap, afterFive.history =
        fiveState.history.take (fiveState.stepNumber + 1) ++ [snap]) ∧
      afterFive.history.length = fiveState.stepNumber + 2 ∧
      afterFive.stepNumber = afterFive.history.length - 1) ∧
    afterFive.history.length = 2 :=
  ⟨by decide, rfl,
   C3_append_truncates_then_extends fiveState afterFive 0 (by decide) rfl, rfl⟩

/-- C4: the claim says that once a winner exists every move attempt on that
snapshot is rejected and places no mark. The reducer does reject
(`boardReducer` returns `undefined` when `calculateWinner` is non-null), but
`selectSquare` of part_001 does not: its winner check (line 32) calls
`calculateWinner(square)` — the clicked index, a number on which every
property read is `undefined` — instead of `calculateWinner(squares)`, directly
against the instruction in the comment two lines above it, so the check never
fires and a mark is placed on the already-won board: with X holding the top
row and O to move, `selectSquare` at the empty cell 5 places O. -/
theorem C4_part001_places_mark_after_win :
    calculateWinner wonBoard.squares = some Mark.X ∧
    boardReducer { history := [wonBoard], stepNumber := 0 } (.SELECT_SQUARE 5) =
      .ok none ∧
    selectSquare wonBoard.squares false 5 =
      some (setCell wonBoard.squares 5 Mark.O, true) ∧
    cellAt (setCell wonBoard.squares 5 Mark.O) 5 = some Mark.O :=
  ⟨rfl, rfl, rfl, rfl⟩

/-- C5: `calculateWinner` scans exactly the eight lines (3 rows, 3 columns,
2 diagonals) in the fixed order of the `lines` literal and returns the mark
of the first line whose three cells hold equal non-empty marks, null when no
line matches — i.e. it coincides with the spec's first-matching-line function
`winnerSpec` on every board. -/
theorem C5_winner_first_matching_line :
    lines = [(0, 1, 2), (3, 4, 5), (6, 7, 8),
             (0, 3, 6), (1, 4, 7), (2, 5, 8),
             (0, 4, 8), (2, 4, 6)] ∧
    ∀ squares : Squares, calculateWinner squares = winnerSpec squares :=
  ⟨rfl, fun squares => winnerLoop_findSome (cellAt squares) lines⟩

/-- C6 counterexample: the claim says a `SELECT_SQUARE` whose cell index is
outside `[0, 8]` fails and produces no new snapshot. At the concrete input —
initial state, cell index 9 — the reducer succeeds: it appends a new snapshot
(the squares array extended to length 10 with X at index 9) and advances the
cursor. -/
theorem C6_counterexample :
    boardReducer initialState (.SELECT_SQUARE 9) =
      .ok (some { history := [emptySnapshot,
                    ⟨setCell emptySnapshot.squares 9 Mark.X⟩],
                  stepNumber := 1 }) ∧
    (setCell emptySnapshot.squares 9 Mark.X).length = 10 :=
  ⟨rfl, rfl⟩

/-- C6 amended: the reducer performs no bounds check on the cell index. For
every state whose current snapshot has the 9 cells of a board and no winner,
a `SELECT_SQUARE` at any index `i ≥ 9` is accepted: the missing cell reads as
`undefined` (empty), a new snapshot is appended whose squares array is
extended to length `i + 1` with the mover's mark at index `i`, and the cursor
advances. -/
theorem C6_no_bounds_check (st : GameState) (cur : Snapshot) (i : Nat)
    (hcur : currentSnapshot st = some cur)
    (hlen : cur.squares.length = 9)
    (hw : calculateWinner cur.squares = none)
    (hi : 9 ≤ i) :
    boardReducer st (.SELECT_SQUARE i) =
      .ok (some { history := st.history.take (st.stepNumber + 1) ++
                    [⟨setCell cur.squares i (whoseTurn st.stepNumber)⟩],
                  stepNumber := st.stepNumber + 1 }) ∧
    (setCell cur.squares i (whoseTurn st.stepNumber)).length = i + 1 ∧
    cellAt (setCell cur.squares i (whoseTurn st.stepNumber)) i =
      some (whoseTurn st.stepNumber) := by
  have ho : cellAt cur.squares i = none :=
    cellAt_of_length_le cur.squares i (by omega)
  refine ⟨?_, ?_, cellAt_setCell_self cur.squares i (whoseTurn st.stepNumber)⟩
  · unfold currentSnapshot at hcur
    unfold boardReducer
    simp only
    rw [hcur]
    simp [hw, ho, whoseTurn]
  · rw [length_setCell, hlen, if_neg (by omega)]

/-- C6 witness for the amended theorem: the initial state and cell index 9. -/
theorem C6_witness :
    currentSnapshot initialState = some emptySnapshot ∧
    emptySnapshot.squares.length = 9 ∧
    calculateWinner emptySnapshot.squares = none ∧
    9 ≤ 9 ∧
    (boardReducer initialState (.SELECT_SQUARE 9) =
        .ok (some { history := initialState.history.take
                      (initialState.stepNumber + 1) ++
                      [⟨setCell emptySnapshot.squares 9
                          (whoseTurn initialState.stepNumber)⟩],
                    stepNumber := initialState.stepNumber + 1 }) ∧
      (setCell emptySnapshot.squares 9
          (whoseTurn initialState.stepNumber)).length = 9 + 1 ∧
      cellAt (setCell emptySnapshot.squares 9
          (whoseTurn initialState.stepNumber)) 9 =
        some (whoseTurn initialState.stepNumber)) :=
  ⟨rfl, rfl, rfl, by decide,
   C6_no_bounds_check initialState emptySnapshot 9 rfl rfl rfl (by decide)⟩

/-- C7: whose turn it is depends only on the parity of the cursor — X when
even, O when odd, flipping at every increment — and every accepted
`SELECT_SQUARE` places exactly `whoseTurn(cursor)`'s mark into the appended
snapshot and advances the cursor by one, so the moving player alternates
strictly across consecutive accepted moves. -/
theorem C7_turn_parity_and_alternation :
    (∀ c : Nat, (c % 2 = 0 → whoseTurn c = Mark.X) ∧
      (c % 2 = 1 → whoseTurn c = Mark.O) ∧
      whoseTurn (c + 1) ≠ whoseTurn c) ∧
    (∀ (st st' : GameState) (i : Nat),
      boardReducer st (.SELECT_SQUARE i) = .ok (some st') →
      st'.stepNumber = st.stepNumber + 1 ∧
      (∃ snap, st'.history.getLast? = some snap ∧
        cellAt snap.squares i = some (whoseTurn st.stepNumber)) ∧
      whoseTurn st'.stepNumber ≠ whoseTurn st.stepNumber) := by
  refine ⟨fun c => ⟨fun h => by rw [whoseTurn, if_pos h],
    fun h => by rw [whoseTurn, if_neg (by omega)], whoseTurn_succ_ne c⟩,
    fun st st' i h => ?_⟩
  obtain ⟨cur, hc, hw, ho, hs⟩ := selectSquare_success h
  subst hs
  refine ⟨rfl, ⟨⟨setCell cur.squares i (whoseTurn st.stepNumber)⟩, ?_, ?_⟩, ?_⟩
  · exact concat_getLast _ _
  · exact cellAt_setCell_self cur.squares i (whoseTurn st.stepNumber)
  · exact whoseTurn_succ_ne st.stepNumber

/-- C7 witness: the first move of a game, at cell 4. -/
theorem C7_witness :
    (0 % 2 = 0 ∧ whoseTurn 0 = Mark.X) ∧
    boardReducer initialState (.SELECT_SQUARE 4) = .ok (some afterMove4) ∧
    (afterMove4.stepNumber = initialState.stepNumber + 1 ∧
      (∃ snap, afterMove4.history.getLast? = some snap ∧
        cellAt snap.squares 4 = some (whoseTurn initialState.stepNumber)) ∧
      whoseTurn afterMove4.stepNumber ≠ whoseTurn initialState.stepNumber) :=
  ⟨⟨rfl, (C7_turn_parity_and_alternation.1 0).1 rfl⟩, rfl,
   C7_turn_parity_and_alternation.2 initialState afterMove4 4 rfl⟩

/-- C8: applying any sequence of accepted `SELECT_SQUARE` moves from the
initial state (one empty snapshot, cursor 0), with no intervening
`SET_STEPNUMBER`, leaves the history with one snapshot per move plus the
initial one, and the cursor at the last index after every append. -/
theorem C8_history_length_invariant (ms : List Nat) (st : GameState)
    (h : runMoves initialState ms = some st) :
    st.history.length = ms.length + 1 ∧
    st.stepNumber = st.history.length - 1 := by
  obtain ⟨hA, hB⟩ := runMoves_invariant ms initialState st rfl h
  refine ⟨?_, by omega⟩
  rw [hA]
  simp [initialState]
  omega

/-- C8 witness: the three legal moves 0, 4, 1 from the initial state. -/
theorem C8_witness :
    runMoves initialState [0, 4, 1] = some afterThree ∧
    (afterThree.history.length = [0, 4, 1].length + 1 ∧
      afterThree.stepNumber = afterThree.history.length - 1) :=
  ⟨rfl, C8_history_length_invariant [0, 4, 1] afterThree rfl⟩

/-- C9 counterexample: the claim says a move on an occupied cell always
returns `CellOccupied`. On a board that is already decided (X holds the top
row) with the occupied cell 4 as target, the spec's own check order makes
`applyMove` return `AlreadyDecided`, not `CellOccupied` — and the code never
materialises either: the reducer rejection is the undiscriminated value
`undefined`. -/
theorem C9_counterexample :
    (cellAt wonBoard.squares 4).isSome = true ∧
    applyMoveSpec wonBoard 4 0 = .error MoveError.AlreadyDecided ∧
    MoveError.AlreadyDecided ≠ MoveError.CellOccupied :=
  ⟨rfl, rfl, by decide⟩

/-- C9 amended: a `SELECT_SQUARE` whose target cell on the current snapshot is
occupied is always rejected — the reducer produces no new snapshot and no
state (so no stored snapshot is touched) — and, when the board is not already
decided, the spec's `applyMove` classifies the rejection as `CellOccupied`
(when it is decided, `AlreadyDecided` takes precedence). -/
theorem C9_occupied_always_rejected (st : GameState) (cur : Snapshot) (i : Nat)
    (hcur : currentSnapshot st = some cur)
    (hocc : (cellAt cur.squares i).isSome = true) :
    boardReducer st (.SELECT_SQUARE i) = .ok none ∧
    (calculateWinner cur.squares = none →
      applyMoveSpec cur i st.stepNumber = .error MoveError.CellOccupied) := by
  constructor
  · unfold currentSnapshot at hcur
    unfold boardReducer
    simp only
    rw [hcur]
    simp [hocc]
  · intro hw
    unfold applyMoveSpec
    simp [hw, hocc]

/-- C9 witness for the amended theorem: cursor 1, cell 0 already holds X, no
winner on the board. -/
theorem C9_witness :
    currentSnapshot { history := [occBoard], stepNumber := 1 } = some occBoard ∧
    (cellAt occBoard.squares 0).isSome = true ∧
    (boardReducer { history := [occBoard], stepNumber := 1 }
        (.SELECT_SQUARE 0) = .ok none ∧
      (calculateWinner occBoard.squares = none →
        applyMoveSpec occBoard 0 1 = .error MoveError.CellOccupied)) :=
  ⟨rfl, rfl,
   C9_occupied_always_rejected { history := [occBoard], stepNumber := 1 }
     occBoard 0 rfl rfl⟩

/-- C10: dispatching an action whose type string is neither `SET_STEPNUMBER`
nor `SELECT_SQUARE` makes the reducer throw an `Error` whose message names the
unexpected type (`"Unexpection action: " ++ type`, sic, 09.classes.js line
208), rather than returning any state. -/
theorem C10_unknown_action_throws (st : GameState) (t : String)
    (_h1 : t ≠ "SET_STEPNUMBER") (_h2 : t ≠ "SELECT_SQUARE") :
    boardReducer st (.other t) = .error ("Unexpection action: " ++ t) :=
  rfl

/-- C10 witness: the unknown action type `"RESET"`. -/
theorem C10_witness :
    "RESET" ≠ "SET_STEPNUMBER" ∧ "RESET" ≠ "SELECT_SQUARE" ∧
    boardReducer initialState (.other "RESET") =
      .error ("Unexpection action: " ++ "RESET") :=
  ⟨by decide, by decide,
   C10_unknown_action_throws initialState "RESET" (by decide) (by decide)⟩

end TicTacToe
